import Mathlib

/-!
Verification of the spotify-song-recommender core pipeline.

This file shallow-embeds the pure logic of `app.py` (text normalizer,
fuzzy similarity, favorite resolver with its cascading search strategy,
standard recommendation expander) and of `core_recommender.py`
(the simpler resolver/expander variant).  The catalog web service is
modelled as a record of functions from query data to `Except Unit`
results, where `.error ()` stands for a raised transport exception.

Python floats are modelled by exact rationals; scores are produced with
`mkRat` over integer arithmetic and proved equal to the textbook
`0.6 * artistScore + 0.4 * titleScore` expression.  Python strings are
modelled via their character lists (ASCII fragment; the NFKD
diacritic-stripping step of `_clean` is the identity on this fragment).
-/

deriving instance DecidableEq for Except

namespace SpotifyRec

/-! ## String primitives (models of Python `str` methods) -/

/-- Model of Python `str.strip()` on a character list: drop whitespace
from both ends. -/
def stripChars (l : List Char) : List Char :=
  ((l.dropWhile Char.isWhitespace).reverse.dropWhile Char.isWhitespace).reverse

/-- Model of Python `s.strip()`. -/
def pyStrip (s : String) : String := String.mk (stripChars s.data)

/-- Model of Python `s.lower()` (ASCII fragment). -/
def pyLower (s : String) : String := String.mk (s.data.map Char.toLower)

/-- Helper for `pySplit`: scan characters, accumulating the current
token in reverse. -/
def splitWsAux : List Char → List Char → List String
  | [], acc => if acc = [] then [] else [String.mk acc.reverse]
  | c :: cs, acc =>
    if c.isWhitespace then
      if acc = [] then splitWsAux cs []
      else String.mk acc.reverse :: splitWsAux cs []
    else splitWsAux cs (c :: acc)

/-- Model of Python `s.split()` (split on whitespace runs, no empty
tokens). -/
def pySplit (s : String) : List String := splitWsAux s.data []

/-- Model of Python `" ".join(tokens)`. -/
def joinTokens : List String → String
  | [] => ""
  | t :: ts => ts.foldl (fun acc u => acc ++ " " ++ u) t

/-- Model of Python `" ".join([x, y]).strip()` as used by the query
builders. -/
def join2 (x y : String) : String := pyStrip (x ++ " " ++ y)

/-! ## Text normalizer (`_clean` in app.py) -/

/-- One character of the `re.sub(r"[^a-z0-9\s]", " ", s)` step. -/
def normChar (c : Char) : Char :=
  if ('a' ≤ c ∧ c ≤ 'z') ∨ ('0' ≤ c ∧ c ≤ '9') ∨ c.isWhitespace = true then c
  else ' '

/-- Model of `_clean` from app.py: lower-case, replace every character
outside `[a-z0-9\s]` by a space, collapse whitespace runs, trim.
(The collapse-and-trim step `re.sub(r"\s+", " ", s).strip()` equals
`" ".join(s.split())`.) -/
def normalize (s : String) : String :=
  joinTokens (pySplit (String.mk ((pyLower s).data.map normChar)))

/-! ## Fuzzy similarity (`_ratio` in app.py, rapidfuzz token_sort_ratio) -/

/-- Lexicographic comparison of character lists by code point, as
Python compares strings. -/
def charListLe : List Char → List Char → Bool
  | [], _ => true
  | _ :: _, [] => false
  | a :: as, b :: bs =>
    if a < b then true else if b < a then false else charListLe as bs

/-- Python `<=` on strings. -/
def strLeB (a b : String) : Bool := charListLe a.data b.data

/-- Insert into a sorted list (for the token-sort step). -/
def insertSorted (x : String) : List String → List String
  | [] => [x]
  | y :: ys => if strLeB x y then x :: y :: ys else y :: insertSorted x ys

/-- Insertion sort by Python string order (model of `sorted(tokens)`). -/
def insSortStr : List String → List String
  | [] => []
  | x :: xs => insertSorted x (insSortStr xs)

/-- Longest-common-subsequence length, fuelled so that the kernel can
evaluate it (fuel `|xs| + |ys|` always suffices). -/
def lcsAux : Nat → List Char → List Char → Nat
  | 0, _, _ => 0
  | _ + 1, [], _ => 0
  | _ + 1, _ :: _, [] => 0
  | fuel + 1, a :: as, b :: bs =>
    if a = b then lcsAux fuel as bs + 1
    else max (lcsAux fuel (a :: as) bs) (lcsAux fuel as (b :: bs))

/-- Longest-common-subsequence length of two character lists. -/
def lcsLen (xs ys : List Char) : Nat := lcsAux (xs.length + ys.length) xs ys

/-- Normalized indel similarity on strings scaled to [0,100]
(`fuzz.ratio`): `100 * (2 * lcs) / (|x| + |y|)`, with the rapidfuzz
convention that two empty strings have similarity 100. -/
def simFrac (x y : String) : ℚ :=
  if x.data.length + y.data.length = 0 then 100
  else mkRat (200 * (lcsLen x.data y.data : Int)) (x.data.length + y.data.length)

/-- The token-sort preprocessing: split into tokens, sort, re-join. -/
def prepStr (s : String) : String := joinTokens (insSortStr (pySplit s))

/-- Model of `_ratio` from app.py (rapidfuzz `fuzz.token_sort_ratio`). -/
def similarity (a b : String) : ℚ := simFrac (prepStr a) (prepStr b)

/-! ## Data model and catalog capability -/

/-- An artist object embedded in a track record (fields of interest);
a missing field is modelled as `""`. -/
structure ArtistRef where
  id : String
  name : String
  deriving DecidableEq

/-- A full artist record as returned by `GET /artists/{id}` or artist
searches; missing name is `""`, missing genres is `[]`. -/
structure ArtistRec where
  id : String
  name : String
  genres : List String
  popularity : Nat
  url : String
  deriving DecidableEq

/-- The artist record Python's `{}` fallback produces. -/
def emptyArtistRec : ArtistRec := ⟨"", "", [], 0, ""⟩

/-- A track record as returned by the search / top-tracks endpoints. -/
structure Track where
  id : String
  name : String
  artists : List ArtistRef
  externalUrl : String
  popularity : Nat
  deriving DecidableEq

/-- The catalog access capability: one fixed response behavior per
query.  `.error ()` models a raised transport/HTTP exception. -/
structure Catalog where
  search : String → Nat → Except Unit (List Track)
  getArtist : String → Except Unit ArtistRec
  topTracks : String → Except Unit (List Track)
  related : String → Except Unit (List ArtistRec)
  byGenre : String → Except Unit (List ArtistRec)

/-- `track.get("artists")[0].get("name")` with Python's fallbacks. -/
def leadName (tr : Track) : String :=
  match tr.artists with
  | [] => ""
  | a :: _ => a.name

/-- `track.get("artists")[0].get("id")` with Python's fallbacks. -/
def leadId (tr : Track) : String :=
  match tr.artists with
  | [] => ""
  | a :: _ => a.id

/-- The `turl` component of `extract_track_core`. -/
def trackUrl (tr : Track) : String :=
  if tr.externalUrl ≠ "" then tr.externalUrl
  else if tr.id ≠ "" then "https://open.spotify.com/track/" ++ tr.id
  else ""

/-- Model of `SpotifyClient.extract_track_core`. -/
def extractTrackCore (tr : Track) : String × String × String × String × String :=
  (tr.id, tr.name, leadId tr, leadName tr, trackUrl tr)

/-! ## Search helpers of the client -/

/-- The quoted field-filtered query string built by
`search_tracks_filtered` (and, modulo its guard, by `search_track`). -/
def quotedQuery (title artist : String) : String :=
  join2 (if title ≠ "" then "track:\"" ++ pyStrip title ++ "\"" else "")
        (if artist ≠ "" then "artist:\"" ++ pyStrip artist ++ "\"" else "")

/-- The unquoted field-filtered query string built by
`search_tracks_filtered`. -/
def unquotedQuery (title artist : String) : String :=
  join2 (if title ≠ "" then "track:" ++ pyStrip title else "")
        (if artist ≠ "" then "artist:" ++ pyStrip artist else "")

/-- Model of `SpotifyClient.search_track` (quoted field filters; returns
`[]` without a catalog call when both stripped fields are empty). -/
def searchTrack (cat : Catalog) (title artist : String) (limit : Nat) :
    Except Unit (List Track) :=
  let t := pyStrip title
  let a := pyStrip artist
  if t = "" ∧ a = "" then .ok []
  else
    cat.search
      (join2 (if t ≠ "" then "track:\"" ++ t ++ "\"" else "")
             (if a ≠ "" then "artist:\"" ++ a ++ "\"" else ""))
      limit

/-- Model of `SpotifyClient.search_tracks_filtered`: quoted search
first, then unquoted; an exception in either propagates. -/
def searchTracksFiltered (cat : Catalog) (title artist : String) (limit : Nat) :
    Except Unit (List Track) :=
  let qq := quotedQuery title artist
  match (if qq ≠ "" then cat.search qq limit else .ok []) with
  | .error e => .error e
  | .ok r1 =>
    if r1 ≠ [] then .ok r1
    else
      let qu := unquotedQuery title artist
      match (if qu ≠ "" then cat.search qu limit else .ok []) with
      | .error e => .error e
      | .ok r2 => .ok r2

/-- Model of `SpotifyClient.search_tracks_free`. -/
def searchTracksFree (cat : Catalog) (query : String) (limit : Nat) :
    Except Unit (List Track) :=
  let q := pyStrip query
  if q = "" then .ok [] else cat.search q limit

/-- Model of `SpotifyClient.get_artist_top_tracks` (truncates to
`limit`). -/
def topTracksLtd (cat : Catalog) (artistId : String) (limit : Nat) :
    Except Unit (List Track) :=
  match cat.topTracks artistId with
  | .error e => .error e
  | .ok l => .ok (l.take limit)

/-- `try: ... except Exception: results = []` around a search call. -/
def catchList (x : Except Unit (List Track)) : List Track :=
  match x with
  | .ok l => l
  | .error _ => []

/-! ## The resolver cascade (`_try_search_variants`) -/

/-- The guarded free-text step of the cascade (`q = " ".join([title or
"", artist or ""]).strip(); if q: results = search_tracks_free(q)`,
with its exception handler). -/
def freeStep (cat : Catalog) (title artist : String) (limit : Nat) : List Track :=
  let q := join2 title artist
  if q ≠ "" then catchList (searchTracksFree cat q limit) else []

/-- The guarded title-only step (`if not results and title`). -/
def titleOnlyStep (cat : Catalog) (title : String) (limit : Nat) : List Track :=
  if title ≠ "" then catchList (searchTrack cat title "" limit) else []

/-- The guarded artist-only step (`if not results and artist`). -/
def artistOnlyStep (cat : Catalog) (artist : String) (limit : Nat) : List Track :=
  if artist ≠ "" then catchList (searchTrack cat "" artist limit) else []


/-- Model of `_try_search_variants` from app.py.  The result is
`.error ()` exactly when the final first-token step raises the uncaught
`IndexError` (`title.split()[0]` on a truthy all-whitespace `title`,
and likewise for `artist`); every search exception is caught. -/
def trySearchVariants (cat : Catalog) (title artist : String) (limit : Nat) :
    Except Unit (List Track) :=
  let r1 := catchList (searchTracksFiltered cat title artist limit)
  if r1 ≠ [] then .ok r1 else
  let r2 := freeStep cat title artist limit
  if r2 ≠ [] then .ok r2 else
  let r3 := catchList (searchTrack cat title artist limit)
  if r3 ≠ [] then .ok r3 else
  let r4 := titleOnlyStep cat title limit
  if r4 ≠ [] then .ok r4 else
  let r5 := artistOnlyStep cat artist limit
  if r5 ≠ [] then .ok r5 else
  match (if title ≠ "" then
           (match pySplit title with
            | [] => Except.error ()
            | x :: _ => Except.ok x)
         else .ok "") with
  | .error e => .error e
  | .ok tFirst =>
    match (if artist ≠ "" then
             (match pySplit artist with
              | [] => Except.error ()
              | x :: _ => Except.ok x)
           else .ok "") with
    | .error e => .error e
    | .ok aFirst =>
      if tFirst ≠ "" ∨ aFirst ≠ "" then
        .ok (catchList (searchTrack cat tFirst aFirst limit))
      else .ok []

/-! ## The spec-side six-step cascade (for the refinement comparison of
the cascading query strategy as the spec words it: six independent
steps, a failure at any step is treated as "no results", stop at the
first non-empty result set). -/

/-- Spec step 1: field-filtered quoted search. -/
def specStep1 (cat : Catalog) (title artist : String) (limit : Nat) : List Track :=
  let q := quotedQuery title artist
  if q ≠ "" then catchList (cat.search q limit) else []

/-- Spec step 2: field-filtered unquoted search. -/
def specStep2 (cat : Catalog) (title artist : String) (limit : Nat) : List Track :=
  let q := unquotedQuery title artist
  if q ≠ "" then catchList (cat.search q limit) else []

/-- Spec step 6: search on the first whitespace-delimited token of each
field. -/
def specStep6 (cat : Catalog) (title artist : String) (limit : Nat) : List Track :=
  let tFirst := (pySplit title).headD ""
  let aFirst := (pySplit artist).headD ""
  if tFirst ≠ "" ∨ aFirst ≠ "" then catchList (searchTrack cat tFirst aFirst limit)
  else []

/-- The cascade exactly as the spec words it: attempt the six
strategies in order, stop at the first non-empty result set. -/
def specCascade (cat : Catalog) (title artist : String) (limit : Nat) : List Track :=
  let s1 := specStep1 cat title artist limit
  if s1 ≠ [] then s1 else
  let s2 := specStep2 cat title artist limit
  if s2 ≠ [] then s2 else
  let s3 := freeStep cat title artist limit
  if s3 ≠ [] then s3 else
  let s4 := titleOnlyStep cat title limit
  if s4 ≠ [] then s4 else
  let s5 := artistOnlyStep cat artist limit
  if s5 ≠ [] then s5 else
  specStep6 cat title artist limit

/-! ## Candidate scoring and resolution (`resolve_favorite_to_artist`) -/

/-- `0.6 * sa + 0.4 * st`, computed as one `mkRat` over integer
arithmetic so the kernel can evaluate it; `scoreMix_eq` below proves it
equal to the textbook expression. -/
def scoreMix (sa st : ℚ) : ℚ :=
  mkRat (6 * sa.num * st.den + 4 * st.num * sa.den) (10 * sa.den * st.den)

/-- The candidate score computed inside `resolve_favorite_to_artist`:
a similarity term is `0.0` when the corresponding normalized input
field is empty. -/
def codeScore (title artist : String) (tr : Track) : ℚ :=
  let tc := normalize title
  let ac := normalize artist
  let st := if tc ≠ "" then similarity tc (normalize tr.name) else 0
  let sa := if ac ≠ "" then similarity ac (normalize (leadName tr)) else 0
  scoreMix sa st

/-- The score formula exactly as the specification words it (no
empty-field guard): `0.6 * similarity(normalize(artist),
normalize(candidate.leadArtistName)) + 0.4 * similarity(
normalize(title), normalize(candidate.trackName))`. -/
def claimScore (title artist : String) (tr : Track) : ℚ :=
  scoreMix (similarity (normalize artist) (normalize (leadName tr)))
           (similarity (normalize title) (normalize tr.name))

/-- One step of the best-candidate fold (`if score > best_score`). -/
def stepBest (sc : Track → ℚ) (acc : Option Track × ℚ) (tr : Track) :
    Option Track × ℚ :=
  if acc.2 < sc tr then (some tr, sc tr) else acc

/-- The best-candidate fold with Python's initial `(None, -1.0)`. -/
def bestOf (sc : Track → ℚ) (cs : List Track) : Option Track × ℚ :=
  cs.foldl (stepBest sc) (none, -1)

/-- Model of `resolve_favorite_to_artist`.  `.error ()` models an
uncaught exception (the cascade's IndexError or a raised
`get_artist`). -/
def resolveFavoriteToArtist (cat : Catalog) (title artist : String)
    (limit : Nat) (acceptThreshold : ℚ) :
    Except Unit (Option (String × String × List String)) :=
  match trySearchVariants cat title artist limit with
  | .error e => .error e
  | .ok cs =>
    match bestOf (codeScore title artist) cs with
    | (none, _) => .ok none
    | (some tr, bestScore) =>
      if bestScore < acceptThreshold then .ok none
      else
        let aid := leadId tr
        match (if aid ≠ "" then cat.getArtist aid else .ok emptyArtistRec) with
        | .error e => .error e
        | .ok adata =>
          .ok (some (aid,
            (if adata.name ≠ "" then adata.name else leadName tr),
            adata.genres))

/-! ## Standard recommendations (`recommend_from_favorites`, app.py) -/

/-- The favorites kept by the guard
`[(t.strip(), a.strip()) for (t, a) in favorites if t and a]` — note
the truthiness test is on the UN-trimmed fields. -/
def resolutionInputs (favorites : List (String × String)) :
    List (String × String) :=
  favorites.filter (fun p => p.1 != "" && p.2 != "")

/-- The trimmed favorite pairs that participate in resolution. -/
def usableFavs (favorites : List (String × String)) : List (String × String) :=
  (resolutionInputs favorites).map (fun p => (pyStrip p.1, pyStrip p.2))

/-- `fav_keys`: lower-cased trimmed favorite pairs. -/
def favKeysOf (favorites : List (String × String)) : List (String × String) :=
  (usableFavs favorites).map (fun p => (pyLower p.1, pyLower p.2))

/-- The resolution loop of app.py's `recommend_from_favorites`:
resolve each usable favorite, skip failures (`except: continue`),
keep resolved artists with a non-empty id. -/
def resolvedArtistInfos (cat : Catalog) (favorites : List (String × String)) :
    List (String × String × List String) :=
  (usableFavs favorites).filterMap (fun p =>
    match resolveFavoriteToArtist cat p.1 p.2 10 72 with
    | .ok (some (aid, aname, genres)) =>
      if aid ≠ "" then some (aid, aname, genres) else none
    | _ => none)

/-- The per-track candidate filter of app.py's expansion loop: skip
tracks with a missing name or missing primary-artist name, skip exact
duplicates of favorites, otherwise produce the display pair. -/
def trackItemApp (favKeys : List (String × String)) (tr : Track) :
    Option (String × String) :=
  let tname := tr.name
  let paName := leadName tr
  if tname = "" ∨ paName = "" then none
  else if (pyLower (pyStrip tname), pyLower (pyStrip paName)) ∈ favKeys then none
  else some (tname ++ " — " ++ paName, trackUrl tr)

/-- The candidate accumulation of app.py's expansion loop (a failing
top-tracks call contributes zero candidates). -/
def candidatesOf (cat : Catalog) (infos : List (String × String × List String))
    (favKeys : List (String × String)) : List (String × String) :=
  infos.flatMap (fun i =>
    match topTracksLtd cat i.1 10 with
    | .error _ => []
    | .ok top => top.filterMap (trackItemApp favKeys))

/-- The dedup-and-truncate loop (`seen, recs = set(), []; ... break`). -/
def dedupGo (maxRecs : Nat) :
    List (String × String) → List String → List (String × String) →
      List (String × String)
  | [], _, recs => recs
  | (t, u) :: rest, seen, recs =>
    if t ∈ seen then
      (if maxRecs ≤ recs.length then recs else dedupGo maxRecs rest seen recs)
    else
      (let recs2 := recs ++ [(t, u)]
       if maxRecs ≤ recs2.length then recs2
       else dedupGo maxRecs rest (t :: seen) recs2)

/-- Deduplicate by display text (first occurrence wins) and truncate,
exactly as the final loop of `recommend_from_favorites` does. -/
def pickRecs (maxRecs : Nat) (cands : List (String × String)) :
    List (String × String) :=
  dedupGo maxRecs cands [] []

/-- The standard recommendation expander (lines 294–315 of app.py):
from resolved artists and favorite keys to the final display list. -/
def expandStd (cat : Catalog) (infos : List (String × String × List String))
    (favKeys : List (String × String)) (maxRecs : Nat) :
    List (String × String) :=
  pickRecs maxRecs (candidatesOf cat infos favKeys)

/-- Model of app.py's `recommend_from_favorites`. -/
def recommendFromFavorites (cat : Catalog) (favorites : List (String × String))
    (maxRecs : Nat) : List (String × String) :=
  expandStd cat (resolvedArtistInfos cat favorites) (favKeysOf favorites) maxRecs

/-! ## The core_recommender.py variant -/

/-- The resolution loop of core_recommender.py: first result of the
quoted search with limit 1, no scoring, artist name taken from the
track record; a raised `get_artist` skips the favorite. -/
def coreArtistInfos (cat : Catalog) (favorites : List (String × String)) :
    List (String × String × List String) :=
  (usableFavs favorites).filterMap (fun p =>
    match searchTrack cat p.1 p.2 1 with
    | .error _ => none
    | .ok [] => none
    | .ok (tr :: _) =>
      let aid := leadId tr
      if aid ≠ "" then
        match cat.getArtist aid with
        | .error _ => none
        | .ok adata => some (aid, leadName tr, adata.genres)
      else none)

/-- The per-track candidate filter of core_recommender.py's expansion
loop: no missing-name check, only the favorite-key skip. -/
def trackItemCore (favKeys : List (String × String)) (tr : Track) :
    Option (String × String) :=
  let tname := tr.name
  let paName := leadName tr
  if (pyLower (pyStrip tname), pyLower (pyStrip paName)) ∈ favKeys then none
  else some (tname ++ " — " ++ paName, trackUrl tr)

/-- Candidate accumulation of core_recommender.py. -/
def coreCandidatesOf (cat : Catalog)
    (infos : List (String × String × List String))
    (favKeys : List (String × String)) : List (String × String) :=
  infos.flatMap (fun i =>
    match topTracksLtd cat i.1 10 with
    | .error _ => []
    | .ok top => top.filterMap (trackItemCore favKeys))

/-- Model of core_recommender.py's `recommend_from_favorites`. -/
def recommendFromFavoritesCore (cat : Catalog)
    (favorites : List (String × String)) (maxRecs : Nat) :
    List (String × String) :=
  pickRecs maxRecs
    (coreCandidatesOf cat (coreArtistInfos cat favorites) (favKeysOf favorites))

/-! ## Spec-modelled parts (code truncated in src/app.py) -/

/-- Modelled from the spec: the UI-facing partial-input warning
computation ("a favorite pair has exactly one of title/artist populated
— reported back as a per-field warning").  The part of app.py that
renders and reports warnings lies in the UI section after line 333,
which is missing from the truncated source file. -/
def partialInputWarnings (favorites : List (String × String)) :
    List (String × String) :=
  favorites.filter (fun p =>
    (p.1 != "" && p.2 == "") || (p.1 == "" && p.2 != ""))

/-- A display item for an artist record (used by the niche buckets). -/
def artistItem (a : ArtistRec) : String × String := (a.name, a.url)

/-- A display item for a track record. -/
def bucketTrackItem (tr : Track) : String × String :=
  (tr.name ++ " — " ++ leadName tr, trackUrl tr)

/-- Modelled from the spec: the body of `build_recommendation_buckets`
(§4.4 of the spec) is truncated in src/app.py (the file ends at line
333, inside the resolution loop), so the bucket construction is
modelled from the spec's words: three fixed labelled buckets — hidden
gems (favorite artists' top tracks with popularity ≤ trackPopMax),
rising stars from related artists (popularity ≤ artistPopMax), rising
stars by genre (popularity ≤ artistPopMax) — each independently capped
at `perBucket`, each tolerating per-call failures, and every label
emitted even when its list is empty. -/
def buildRecommendationBuckets (cat : Catalog)
    (favorites : List (String × String)) (trackPopMax artistPopMax : Nat)
    (perBucket : Nat) : List (String × List (String × String)) :=
  let infos := resolvedArtistInfos cat favorites
  let hidden :=
    (infos.flatMap (fun i =>
      (catchList (topTracksLtd cat i.1 10)).filter
        (fun tr => tr.popularity ≤ trackPopMax))).map bucketTrackItem
  let relatedRising :=
    infos.flatMap (fun i =>
      ((match cat.related i.1 with
        | .error _ => []
        | .ok l => l).filter
          (fun (a : ArtistRec) => a.popularity ≤ artistPopMax)).map artistItem)
  let genreRising :=
    ((infos.flatMap (fun i => i.2.2)).dedup).flatMap (fun g =>
      ((match cat.byGenre g with
        | .error _ => []
        | .ok l => l).filter
          (fun (a : ArtistRec) => a.popularity ≤ artistPopMax)).map artistItem)
  [("Hidden gems", hidden.take perBucket),
   ("Rising stars (related artists)", relatedRising.take perBucket),
   ("Rising stars (by genre)", genreRising.take perBucket)]

/-! ## Spec-side characterizations used by the claim statements -/

/-- A field is empty or contains a non-whitespace character (so Python
`title.split()[0]` cannot raise and `title.strip()` is non-empty
exactly when `title` is truthy). -/
def fieldOk (s : String) : Prop := s = "" ∨ (pyStrip s ≠ "" ∧ pySplit s ≠ [])

/-- `tr` is the first candidate attaining the maximum score: every
earlier candidate scores strictly lower, every later one at most as
high. -/
def isFirstMax (sc : Track → ℚ) (cs : List Track) (tr : Track) : Prop :=
  ∃ l1 l2, cs = l1 ++ tr :: l2 ∧ (∀ v ∈ l1, sc v < sc tr) ∧
    (∀ v ∈ l2, sc v ≤ sc tr)

/-- Keep the first occurrence of each display text (the spec-side
description of the dedup loop). -/
def dedupFirst : List (String × String) → List String → List (String × String)
  | [], _ => []
  | (t, u) :: rest, seen =>
    if t ∈ seen then dedupFirst rest seen
    else (t, u) :: dedupFirst rest (t :: seen)

/-! ## Concrete fixtures for witnesses and counterexamples -/

/-- A catalog on which every call raises. -/
def failCat : Catalog where
  search := fun _ _ => .error ()
  getArtist := fun _ => .error ()
  topTracks := fun _ => .error ()
  related := fun _ => .error ()
  byGenre := fun _ => .error ()

/-- Candidate track whose name normalizes to `""` (for the C1
counterexample). -/
def cxTrack1 : Track := ⟨"t1", "!!", [⟨"A1", "Abba"⟩], "u1", 50⟩

/-- Catalog for the C1 counterexample: the quoted search for
`("??", "Abba")` returns `cxTrack1`. -/
def cxCat1 : Catalog where
  search := fun q _ => if q = quotedQuery "??" "Abba" then .ok [cxTrack1] else .ok []
  getArtist := fun _ => .ok ⟨"A1", "Abba", [], 0, ""⟩
  topTracks := fun _ => .ok []
  related := fun _ => .ok []
  byGenre := fun _ => .ok []

/-- Exact-match candidate for the C1 witness. -/
def w1TrackA : Track := ⟨"t1", "aa", [⟨"A1", "bb"⟩], "u1", 50⟩

/-- Poorly matching candidate for the C1 witness. -/
def w1TrackB : Track := ⟨"t2", "zz", [⟨"A2", "qq"⟩], "u2", 40⟩

/-- Catalog for the C1 witness. -/
def w1Cat : Catalog where
  search := fun q _ =>
    if q = quotedQuery "aa" "bb" then .ok [w1TrackA, w1TrackB] else .ok []
  getArtist := fun a => if a = "A1" then .ok ⟨"A1", "BB", ["pop"], 70, ""⟩ else .error ()
  topTracks := fun _ => .ok []
  related := fun _ => .ok []
  byGenre := fun _ => .ok []

/-- Candidate reachable only through the unquoted search (for the C2
counterexample). -/
def cxTrack2 : Track := ⟨"t3", "song", [⟨"A3", "band"⟩], "u3", 10⟩

/-- Catalog for the C2 counterexample: the quoted field-filtered query
raises, the unquoted one has a result. -/
def cxCat2 : Catalog where
  search := fun q _ =>
    if q = quotedQuery "T" "A" then .error ()
    else if q = unquotedQuery "T" "A" then .ok [cxTrack2]
    else .ok []
  getArtist := fun _ => .ok emptyArtistRec
  topTracks := fun _ => .ok []
  related := fun _ => .ok []
  byGenre := fun _ => .ok []

/-- Candidate reachable only through the free-text search (for the C2
witness). -/
def w2Track : Track := ⟨"t4", "hello", [⟨"A4", "world"⟩], "u4", 30⟩

/-- Catalog for the C2 witness: both field-filtered queries return
empty, the free-text query has an exact match. -/
def w2Cat : Catalog where
  search := fun q _ => if q = "hello world" then .ok [w2Track] else .ok []
  getArtist := fun _ => .ok ⟨"A4", "World", ["indie"], 20, ""⟩
  topTracks := fun _ => .ok []
  related := fun _ => .ok []
  byGenre := fun _ => .ok []

/-- Catalog for the C3 counterexample and witness: one artist with one
top track. -/
def cat3 : Catalog where
  search := fun _ _ => .ok []
  getArtist := fun _ => .error ()
  topTracks := fun a => if a = "A1" then .ok [⟨"t1", "Song", [⟨"A1", "Band"⟩], "u", 50⟩] else .ok []
  related := fun _ => .ok []
  byGenre := fun _ => .ok []

/-- Catalog for the C4 witness: resolves one favorite and returns one
fresh top track. -/
def w4Cat : Catalog where
  search := fun q _ =>
    if q = quotedQuery "Blinding Lights" "The Weeknd" then
      .ok [⟨"t1", "Blinding Lights", [⟨"W", "The Weeknd"⟩], "u0", 80⟩]
    else .ok []
  getArtist := fun a => if a = "W" then .ok ⟨"W", "The Weeknd", ["pop"], 90, ""⟩ else .error ()
  topTracks := fun a =>
    if a = "W" then .ok [⟨"t2", "Save Your Tears", [⟨"W", "The Weeknd"⟩], "u2", 85⟩]
    else .ok []
  related := fun _ => .ok []
  byGenre := fun _ => .ok []

/-- Accepted candidate for the C6 counterexample and witness. -/
def track6 : Track := ⟨"t6", "song", [⟨"A6", "band"⟩], "u6", 10⟩

/-- Catalog for the C6 counterexample: the search succeeds with an
exact match but `get_artist` raises. -/
def cxCat6 : Catalog where
  search := fun q _ => if q = quotedQuery "song" "band" then .ok [track6] else .ok []
  getArtist := fun _ => .error ()
  topTracks := fun _ => .ok []
  related := fun _ => .ok []
  byGenre := fun _ => .ok []

/-- Same catalog with a healthy `get_artist` (shows the candidate is
accepted). -/
def cxCat6b : Catalog where
  search := fun q _ => if q = quotedQuery "song" "band" then .ok [track6] else .ok []
  getArtist := fun _ => .ok ⟨"A6", "Band6", [], 0, ""⟩
  topTracks := fun _ => .ok []
  related := fun _ => .ok []
  byGenre := fun _ => .ok []

/-- Same catalog with a `get_artist` that returns the empty record
(Python `{}`), for the C6 witness. -/
def w6Cat : Catalog where
  search := fun q _ => if q = quotedQuery "song" "band" then .ok [track6] else .ok []
  getArtist := fun _ => .ok emptyArtistRec
  topTracks := fun _ => .ok []
  related := fun _ => .ok []
  byGenre := fun _ => .ok []

/-- Catalog for the C10 counterexample: the quoted search returns a
track whose names are far from the favorite, so the scored resolver of
app.py rejects it while core_recommender.py accepts it blindly. -/
def cxCat10 : Catalog where
  search := fun q _ =>
    if q = quotedQuery "AAAA" "BBBB" then .ok [⟨"t1", "zzzz", [⟨"A1", "qqqq"⟩], "u1", 50⟩]
    else .ok []
  getArtist := fun a => if a = "A1" then .ok ⟨"A1", "QQ", ["x"], 10, ""⟩ else .error ()
  topTracks := fun a =>
    if a = "A1" then .ok [⟨"t2", "wwww", [⟨"A1", "qqqq"⟩], "u2", 60⟩] else .ok []
  related := fun _ => .ok []
  byGenre := fun _ => .ok []

/-- Catalog for the C10 witness: an exact match, so both variants
resolve the same artist. -/
def w10Cat : Catalog where
  search := fun q _ =>
    if q = quotedQuery "aa" "bb" then .ok [⟨"t1", "aa", [⟨"A1", "bb"⟩], "u1", 50⟩]
    else .ok []
  getArtist := fun a => if a = "A1" then .ok ⟨"A1", "bb", ["g"], 10, ""⟩ else .error ()
  topTracks := fun a =>
    if a = "A1" then .ok [⟨"t2", "cc", [⟨"A1", "bb"⟩], "u2", 60⟩] else .ok []
  related := fun _ => .ok []
  byGenre := fun _ => .ok []

/-! ## Lemmas about the similarity function -/

theorem lcsAux_le_left : ∀ (f : Nat) (xs ys : List Char), lcsAux f xs ys ≤ xs.length := by
  intro f
  induction f with
  | zero => intro xs ys; simp [lcsAux]
  | succ f ih =>
    intro xs ys
    match xs, ys with
    | [], _ => simp [lcsAux]
    | _ :: _, [] => simp [lcsAux]
    | a :: as, b :: bs =>
      simp only [lcsAux]
      by_cases h : a = b
      · simp only [h, if_pos rfl, List.length_cons]
        exact Nat.succ_le_succ (ih as bs)
      · rw [if_neg h]
        apply max_le
        · exact ih (a :: as) bs
        · calc lcsAux f as (b :: bs) ≤ as.length := ih as (b :: bs)
            _ ≤ (a :: as).length := by simp
  
theorem lcsAux_le_right : ∀ (f : Nat) (xs ys : List Char), lcsAux f xs ys ≤ ys.length := by
  intro f
  induction f with
  | zero => intro xs ys; simp [lcsAux]
  | succ f ih =>
    intro xs ys
    match xs, ys with
    | [], _ => simp [lcsAux]
    | _ :: _, [] => simp [lcsAux]
    | a :: as, b :: bs =>
      simp only [lcsAux]
      by_cases h : a = b
      · simp only [h, if_pos rfl, List.length_cons]
        exact Nat.succ_le_succ (ih as bs)
      · rw [if_neg h]
        apply max_le
        · calc lcsAux f (a :: as) bs ≤ bs.length := ih (a :: as) bs
            _ ≤ (b :: bs).length := by simp
        · exact ih as (b :: bs)

theorem lcsAux_comm : ∀ (f : Nat) (xs ys : List Char), lcsAux f xs ys = lcsAux f ys xs := by
  intro f
  induction f with
  | zero => intro xs ys; simp [lcsAux]
  | succ f ih =>
    intro xs ys
    match xs, ys with
    | [], [] => simp [lcsAux]
    | [], _ :: _ => simp [lcsAux]
    | _ :: _, [] => simp [lcsAux]
    | a :: as, b :: bs =>
      simp only [lcsAux]
      by_cases h : a = b
      · rw [if_pos h, if_pos h.symm, ih as bs]
      · rw [if_neg h, if_neg (fun hba => h hba.symm)]
        rw [ih (a :: as) bs, ih as (b :: bs)]
        exact Nat.max_comm _ _

theorem lcsAux_self : ∀ (f : Nat) (xs : List Char), xs.length ≤ f → lcsAux f xs xs = xs.length := by
  intro f
  induction f with
  | zero =>
    intro xs h
    have hx : xs = [] := by
      cases xs with
      | nil => rfl
      | cons a as => simp at h
    subst hx
    simp [lcsAux]
  | succ f ih =>
    intro xs h
    match xs with
    | [] => simp [lcsAux]
    | a :: as =>
      have h2 : as.length ≤ f := by
        simp only [List.length_cons] at h
        omega
      simp only [lcsAux, List.length_cons]
      rw [if_true, ih as h2]

theorem lcsLen_comm (xs ys : List Char) : lcsLen xs ys = lcsLen ys xs := by
  unfold lcsLen
  rw [Nat.add_comm ys.length xs.length, lcsAux_comm]

theorem lcsLen_le_left (xs ys : List Char) : lcsLen xs ys ≤ xs.length :=
  lcsAux_le_left _ xs ys

theorem lcsLen_le_right (xs ys : List Char) : lcsLen xs ys ≤ ys.length :=
  lcsAux_le_right _ xs ys

theorem lcsLen_self (xs : List Char) : lcsLen xs xs = xs.length := by
  unfold lcsLen
  exact lcsAux_self _ xs (by omega)

theorem simFrac_comm (x y : String) : simFrac x y = simFrac y x := by
  unfold simFrac
  rw [Nat.add_comm y.data.length x.data.length, lcsLen_comm y.data x.data]

theorem simFrac_nonneg (x y : String) : 0 ≤ simFrac x y := by
  unfold simFrac
  by_cases h : x.data.length + y.data.length = 0
  · rw [if_pos h]; norm_num
  · rw [if_neg h, Rat.mkRat_eq_div]
    positivity

theorem simFrac_le_100 (x y : String) : simFrac x y ≤ 100 := by
  unfold simFrac
  by_cases h : x.data.length + y.data.length = 0
  · rw [if_pos h]
  · rw [if_neg h, Rat.mkRat_eq_div]
    rw [div_le_iff₀ (by positivity)]
    have h1 : lcsLen x.data y.data ≤ x.data.length := lcsLen_le_left _ _
    have h2 : lcsLen x.data y.data ≤ y.data.length := lcsLen_le_right _ _
    have h3 : ((2 * lcsLen x.data y.data : Nat) : ℚ) ≤ ((x.data.length + y.data.length : Nat) : ℚ) := by
      exact_mod_cast (by omega : 2 * lcsLen x.data y.data ≤ x.data.length + y.data.length)
    push_cast at h3 ⊢
    nlinarith

theorem simFrac_self (x : String) : simFrac x x = 100 := by
  unfold simFrac
  by_cases h : x.data.length + x.data.length = 0
  · rw [if_pos h]
  · rw [if_neg h, lcsLen_self, Rat.mkRat_eq_div, div_eq_iff (by positivity)]
    push_cast
    ring

theorem similarity_comm (a b : String) : similarity a b = similarity b a := by
  unfold similarity
  exact simFrac_comm _ _

theorem similarity_nonneg (a b : String) : 0 ≤ similarity a b :=
  simFrac_nonneg _ _

theorem similarity_le_100 (a b : String) : similarity a b ≤ 100 :=
  simFrac_le_100 _ _

theorem similarity_self (s : String) : similarity s s = 100 :=
  simFrac_self _

/-! ## Lemmas about the score arithmetic -/

theorem scoreMix_eq (sa st : ℚ) : scoreMix sa st = (6 / 10) * sa + (4 / 10) * st := by
  unfold scoreMix
  have ha : (sa.den : ℚ) ≠ 0 := by exact_mod_cast sa.den_nz
  have hb : (st.den : ℚ) ≠ 0 := by exact_mod_cast st.den_nz
  have ha2 : (sa.num : ℚ) = sa * (sa.den : ℚ) := (div_eq_iff ha).mp (Rat.num_div_den sa)
  have hb2 : (st.num : ℚ) = st * (st.den : ℚ) := (div_eq_iff hb).mp (Rat.num_div_den st)
  have hden : ((10 * sa.den * st.den : Nat) : ℚ) ≠ 0 := by positivity
  rw [Rat.mkRat_eq_div, div_eq_iff hden]
  push_cast
  rw [ha2, hb2]
  ring

theorem scoreMix_nonneg {sa st : ℚ} (h1 : 0 ≤ sa) (h2 : 0 ≤ st) : 0 ≤ scoreMix sa st := by
  rw [scoreMix_eq]
  nlinarith

theorem codeScore_nonneg (title artist : String) (tr : Track) :
    0 ≤ codeScore title artist tr := by
  unfold codeScore
  apply scoreMix_nonneg
  · by_cases h : normalize artist ≠ ""
    · rw [if_pos h]; exact similarity_nonneg _ _
    · rw [if_neg h]
  · by_cases h : normalize title ≠ ""
    · rw [if_pos h]; exact similarity_nonneg _ _
    · rw [if_neg h]

theorem codeScore_gt_negOne (title artist : String) (tr : Track) :
    (-1 : ℚ) < codeScore title artist tr :=
  lt_of_lt_of_le (by norm_num) (codeScore_nonneg title artist tr)



/-- C8: the similarity function is symmetric, its value lies in
[0, 100], and on any string whose normalization is non-empty the
similarity of that normalized string with itself is 100. -/
theorem similarity_symm_bounded_self (a b t : String)
    (ht : normalize t ≠ "") :
    similarity a b = similarity b a ∧
    0 ≤ similarity a b ∧ similarity a b ≤ 100 ∧
    similarity (normalize t) (normalize t) = 100 :=
  ⟨similarity_comm a b, similarity_nonneg a b, similarity_le_100 a b,
   similarity_self (normalize t)⟩

/-- Witness for `similarity_symm_bounded_self` at concrete strings. -/
theorem similarity_symm_bounded_self_witness :
    normalize "Song Title" ≠ "" ∧
    (similarity "ab" "cd" = similarity "cd" "ab" ∧
     0 ≤ similarity "ab" "cd" ∧ similarity "ab" "cd" ≤ 100 ∧
     similarity (normalize "Song Title") (normalize "Song Title") = 100) :=
  ⟨by decide, similarity_symm_bounded_self "ab" "cd" "Song Title" (by decide)⟩


/-! ## The best-candidate fold -/

theorem foldl_stepBest (sc : Track → ℚ) :
    ∀ (cs : List Track) (t : Track),
      ∃ u, cs.foldl (stepBest sc) (some t, sc t) = (some u, sc u) ∧
        sc t ≤ sc u ∧
        ((u = t ∧ ∀ v ∈ cs, sc v ≤ sc t) ∨
         (∃ l1 l2, cs = l1 ++ u :: l2 ∧ sc t < sc u ∧
           (∀ v ∈ l1, sc v < sc u) ∧ (∀ v ∈ l2, sc v ≤ sc u))) := by
  intro cs
  induction cs with
  | nil =>
    intro t
    exact ⟨t, rfl, le_refl _, Or.inl ⟨rfl, by simp⟩⟩
  | cons c rest ih =>
    intro t
    by_cases hc : sc t < sc c
    · have hstep : stepBest sc (some t, sc t) c = (some c, sc c) := by
        unfold stepBest
        exact if_pos hc
      obtain ⟨u, hu, hle, hcase⟩ := ih c
      refine ⟨u, ?_, le_trans (le_of_lt hc) hle, ?_⟩
      · rw [List.foldl_cons, hstep]
        exact hu
      · rcases hcase with ⟨rfl, hall⟩ | ⟨l1, l2, heq, hlt, h1, h2⟩
        · refine Or.inr ⟨[], rest, by simp, hc, by simp, hall⟩
        · refine Or.inr ⟨c :: l1, l2, by rw [heq]; simp, lt_trans hc hlt, ?_, h2⟩
          intro v hv
          rcases List.mem_cons.mp hv with rfl | hv2
          · exact hlt
          · exact h1 v hv2
    · have hstep : stepBest sc (some t, sc t) c = (some t, sc t) := by
        unfold stepBest
        exact if_neg hc
      obtain ⟨u, hu, hle, hcase⟩ := ih t
      refine ⟨u, ?_, hle, ?_⟩
      · rw [List.foldl_cons, hstep]
        exact hu
      · rcases hcase with ⟨rfl, hall⟩ | ⟨l1, l2, heq, hlt, h1, h2⟩
        · refine Or.inl ⟨rfl, ?_⟩
          intro v hv
          rcases List.mem_cons.mp hv with rfl | hv2
          · exact le_of_not_lt hc
          · exact hall v hv2
        · refine Or.inr ⟨c :: l1, l2, by rw [heq]; simp, hlt, ?_, h2⟩
          intro v hv
          rcases List.mem_cons.mp hv with rfl | hv2
          · exact lt_of_le_of_lt (le_of_not_lt hc) hlt
          · exact h1 v hv2

theorem bestOf_firstMax (sc : Track → ℚ) (hpos : ∀ v : Track, (-1 : ℚ) < sc v)
    (cs : List Track) (hne : cs ≠ []) :
    ∃ u, bestOf sc cs = (some u, sc u) ∧ isFirstMax sc cs u := by
  match cs, hne with
  | c :: rest, _ =>
    have hstep : stepBest sc ((none, -1) : Option Track × ℚ) c = (some c, sc c) := by
      unfold stepBest
      exact if_pos (hpos c)
    obtain ⟨u, hu, _, hcase⟩ := foldl_stepBest sc rest c
    refine ⟨u, ?_, ?_⟩
    · unfold bestOf
      rw [List.foldl_cons, hstep]
      exact hu
    · rcases hcase with ⟨rfl, hall⟩ | ⟨l1, l2, heq, hlt, h1, h2⟩
      · exact ⟨[], rest, by simp, by simp, hall⟩
      · refine ⟨c :: l1, l2, by rw [heq]; rfl, ?_, h2⟩
        intro v hv
        rcases List.mem_cons.mp hv with rfl | hv2
        · exact hlt
        · exact h1 v hv2

theorem isFirstMax_ge {sc : Track → ℚ} {cs : List Track} {u : Track}
    (h : isFirstMax sc cs u) : ∀ v ∈ cs, sc v ≤ sc u := by
  obtain ⟨l1, l2, rfl, h1, h2⟩ := h
  intro v hv
  rcases List.mem_append.mp hv with hv1 | hv2
  · exact le_of_lt (h1 v hv1)
  · rcases List.mem_cons.mp hv2 with rfl | hv3
    · exact le_refl _
    · exact h2 v hv3

/-- C1 (amended): with a non-empty candidate list from the cascade,
the resolver scores candidates by `0.6 * artistSim + 0.4 * titleSim`
where a term is 0 when the corresponding normalized input field is
empty, selects the first candidate attaining the maximum score,
returns `none` when that best score is below the acceptance threshold,
and otherwise resolves through the artist-metadata fetch of the
selected candidate's lead artist. -/
theorem resolveScoring (cat : Catalog) (title artist : String) (limit : Nat)
    (threshold : ℚ) (cs : List Track)
    (hcs : trySearchVariants cat title artist limit = .ok cs) (hne : cs ≠ []) :
    ∃ tr, isFirstMax (codeScore title artist) cs tr ∧
      (codeScore title artist tr < threshold →
        resolveFavoriteToArtist cat title artist limit threshold = .ok none) ∧
      (threshold ≤ codeScore title artist tr →
        resolveFavoriteToArtist cat title artist limit threshold =
          (match (if leadId tr ≠ "" then cat.getArtist (leadId tr)
                  else .ok emptyArtistRec) with
           | .error e => .error e
           | .ok adata => .ok (some (leadId tr,
               (if adata.name ≠ "" then adata.name else leadName tr),
               adata.genres)))) := by
  obtain ⟨u, hu, hfm⟩ := bestOf_firstMax (codeScore title artist)
    (codeScore_gt_negOne title artist) cs hne
  refine ⟨u, hfm, ?_, ?_⟩
  · intro hlt
    unfold resolveFavoriteToArtist
    rw [hcs]
    simp only [hu]
    rw [if_pos hlt]
  · intro hge
    unfold resolveFavoriteToArtist
    rw [hcs]
    simp only [hu]
    rw [if_neg (not_lt.mpr hge)]

/-- Witness for `resolveScoring`: a concrete two-candidate search. -/
theorem resolveScoring_witness :
    trySearchVariants w1Cat "aa" "bb" 10 = .ok [w1TrackA, w1TrackB] ∧
    ([w1TrackA, w1TrackB] : List Track) ≠ [] ∧
    (∃ tr, isFirstMax (codeScore "aa" "bb") [w1TrackA, w1TrackB] tr ∧
      (codeScore "aa" "bb" tr < 72 →
        resolveFavoriteToArtist w1Cat "aa" "bb" 10 72 = .ok none) ∧
      (72 ≤ codeScore "aa" "bb" tr →
        resolveFavoriteToArtist w1Cat "aa" "bb" 10 72 =
          (match (if leadId tr ≠ "" then w1Cat.getArtist (leadId tr)
                  else .ok emptyArtistRec) with
           | .error e => .error e
           | .ok adata => .ok (some (leadId tr,
               (if adata.name ≠ "" then adata.name else leadName tr),
               adata.genres))))) :=
  ⟨by decide, by decide,
   resolveScoring w1Cat "aa" "bb" 10 72 [w1TrackA, w1TrackB] (by decide) (by decide)⟩

/-- C1 counterexample: for input `("??", "Abba")` the only candidate
(`cxTrack1`, lead artist "Abba", track name "!!") has claim-formula
score `0.6 * 100 + 0.4 * similarity("", "") = 100 ≥ 72`, because both
the normalized input title and the normalized candidate track name are
empty and `similarity("", "") = 100`; the claim as stated therefore
demands a resolved artist, but the code scores the title term as 0,
gets `60 < 72`, and returns none. -/
theorem resolveScoring_counterexample :
    trySearchVariants cxCat1 "??" "Abba" 10 = .ok [cxTrack1] ∧
    (72 : ℚ) ≤ claimScore "??" "Abba" cxTrack1 ∧
    resolveFavoriteToArtist cxCat1 "??" "Abba" 10 72 = .ok none := by
  refine ⟨by decide, ?_, by decide⟩
  have h1 : similarity (normalize "Abba") (normalize (leadName cxTrack1)) = 100 := by decide
  have h2 : similarity (normalize "??") (normalize cxTrack1.name) = 100 := by decide
  unfold claimScore
  rw [h1, h2]
  decide


/-! ## The dedup-and-truncate loop -/

theorem dedupGo_eq (maxRecs : Nat) :
    ∀ (cands : List (String × String)) (seen : List String)
      (recs : List (String × String)),
      recs.length < maxRecs →
      dedupGo maxRecs cands seen recs =
        recs ++ (dedupFirst cands seen).take (maxRecs - recs.length) := by
  intro cands
  induction cands with
  | nil =>
    intro seen recs h
    simp [dedupGo, dedupFirst]
  | cons p rest ih =>
    intro seen recs h
    obtain ⟨t, u⟩ := p
    by_cases hseen : t ∈ seen
    · simp only [dedupGo, dedupFirst, if_pos hseen]
      rw [if_neg (not_le.mpr h)]
      exact ih seen recs h
    · simp only [dedupGo, dedupFirst, if_neg hseen]
      by_cases hfull : maxRecs ≤ (recs ++ [(t, u)]).length
      · rw [if_pos hfull]
        have hm : maxRecs - recs.length = 1 := by
          simp only [List.length_append, List.length_singleton] at hfull
          omega
        rw [hm]
        simp
      · rw [if_neg hfull]
        have h2 : (recs ++ [(t, u)]).length < maxRecs := not_le.mp hfull
        rw [ih (t :: seen) (recs ++ [(t, u)]) h2]
        have h3 : maxRecs - (recs ++ [(t, u)]).length =
            maxRecs - recs.length - 1 := by
          simp only [List.length_append, List.length_singleton]
          omega
        have hm : maxRecs - recs.length = (maxRecs - recs.length - 1) + 1 := by
          omega
        rw [h3, hm, List.take_succ_cons]
        simp

theorem dedupFirst_nodup :
    ∀ (cands : List (String × String)) (seen : List String),
      ((dedupFirst cands seen).map Prod.fst).Nodup ∧
      ∀ x ∈ (dedupFirst cands seen).map Prod.fst, x ∉ seen := by
  intro cands
  induction cands with
  | nil =>
    intro seen
    simp [dedupFirst]
  | cons p rest ih =>
    intro seen
    obtain ⟨t, u⟩ := p
    by_cases hseen : t ∈ seen
    · simp only [dedupFirst, if_pos hseen]
      exact ih seen
    · simp only [dedupFirst, if_neg hseen, List.map_cons, List.nodup_cons]
      obtain ⟨hnd, hdisj⟩ := ih (t :: seen)
      refine ⟨⟨?_, hnd⟩, ?_⟩
      · intro hmem
        exact (hdisj t hmem) (List.mem_cons_self t seen)
      · intro x hx
        rcases List.mem_cons.mp hx with rfl | hx2
        · exact hseen
        · intro hxs
          exact (hdisj x hx2) (List.mem_cons_of_mem _ hxs)

theorem dedupGo_mem (maxRecs : Nat) :
    ∀ (cands : List (String × String)) (seen : List String)
      (recs : List (String × String)) (p : String × String),
      p ∈ dedupGo maxRecs cands seen recs → p ∈ recs ∨ p ∈ cands := by
  intro cands
  induction cands with
  | nil =>
    intro seen recs p hp
    exact Or.inl (by simpa [dedupGo] using hp)
  | cons q rest ih =>
    intro seen recs p hp
    obtain ⟨t, u⟩ := q
    simp only [dedupGo] at hp
    by_cases hseen : t ∈ seen
    · rw [if_pos hseen] at hp
      by_cases hfull : maxRecs ≤ recs.length
      · rw [if_pos hfull] at hp
        exact Or.inl hp
      · rw [if_neg hfull] at hp
        rcases ih seen recs p hp with h | h
        · exact Or.inl h
        · exact Or.inr (List.mem_cons_of_mem _ h)
    · rw [if_neg hseen] at hp
      by_cases hfull : maxRecs ≤ (recs ++ [(t, u)]).length
      · rw [if_pos hfull] at hp
        rcases List.mem_append.mp hp with h | h
        · exact Or.inl h
        · simp only [List.mem_singleton] at h
          subst h
          exact Or.inr (List.mem_cons_self _ _)
      · rw [if_neg hfull] at hp
        rcases ih (t :: seen) (recs ++ [(t, u)]) p hp with h | h
        · rcases List.mem_append.mp h with h1 | h1
          · exact Or.inl h1
          · simp only [List.mem_singleton] at h1
            subst h1
            exact Or.inr (List.mem_cons_self _ _)
        · exact Or.inr (List.mem_cons_of_mem _ h)

theorem pickRecs_mem {maxRecs : Nat} {cands : List (String × String)}
    {p : String × String} (hp : p ∈ pickRecs maxRecs cands) : p ∈ cands := by
  rcases dedupGo_mem maxRecs cands [] [] p hp with h | h
  · simp at h
  · exact h

/-- C3 (amended): for `maxRecs ≥ 1` the standard expander returns
exactly the first-occurrence deduplication of the accumulated
candidates truncated to `maxRecs`; in particular the output length is
at most `maxRecs` and the display texts are pairwise distinct. -/
theorem expandStdBounded (cat : Catalog)
    (infos : List (String × String × List String))
    (favKeys : List (String × String)) (maxRecs : Nat) (h : 1 ≤ maxRecs) :
    expandStd cat infos favKeys maxRecs =
      (dedupFirst (candidatesOf cat infos favKeys) []).take maxRecs ∧
    (expandStd cat infos favKeys maxRecs).length ≤ maxRecs ∧
    ((expandStd cat infos favKeys maxRecs).map Prod.fst).Nodup := by
  have heq : expandStd cat infos favKeys maxRecs =
      (dedupFirst (candidatesOf cat infos favKeys) []).take maxRecs := by
    unfold expandStd pickRecs
    rw [dedupGo_eq maxRecs _ [] [] (by simpa using h)]
    simp
  refine ⟨heq, ?_, ?_⟩
  · rw [heq]
    exact List.length_take_le _ _
  · rw [heq]
    have hnd := (dedupFirst_nodup (candidatesOf cat infos favKeys) []).1
    exact List.Nodup.sublist ((List.take_sublist _ _).map Prod.fst) hnd

/-- Witness for `expandStdBounded` on a concrete catalog. -/
theorem expandStdBounded_witness :
    (1 : Nat) ≤ 2 ∧
    (expandStd cat3 [("A1", "Band", [])] [] 2 =
      (dedupFirst (candidatesOf cat3 [("A1", "Band", [])] []) []).take 2 ∧
    (expandStd cat3 [("A1", "Band", [])] [] 2).length ≤ 2 ∧
    ((expandStd cat3 [("A1", "Band", [])] [] 2).map Prod.fst).Nodup) :=
  ⟨by decide, expandStdBounded cat3 [("A1", "Band", [])] [] 2 (by decide)⟩

/-- C3 counterexample: with `max_recs = 0` and one available candidate
the dedup loop appends the candidate before testing the bound, so the
returned list has length 1 > 0. -/
theorem expandStdBounded_counterexample :
    ¬ ((expandStd cat3 [("A1", "Band", [])] [] 0).length ≤ 0) := by decide

/-! ## Membership facts for the expander -/

theorem pyStrip_empty : pyStrip "" = "" := rfl

theorem ne_empty_of_pyStrip_ne {s : String} (h : pyStrip s ≠ "") : s ≠ "" := by
  intro hs
  subst hs
  exact h pyStrip_empty

theorem mem_favKeysOf {favorites : List (String × String)} {q : String × String}
    (hq : q ∈ favorites) (h1 : q.1 ≠ "") (h2 : q.2 ≠ "") :
    (pyLower (pyStrip q.1), pyLower (pyStrip q.2)) ∈ favKeysOf favorites := by
  unfold favKeysOf usableFavs resolutionInputs
  simp only [List.mem_map, List.mem_filter]
  exact ⟨(pyStrip q.1, pyStrip q.2), ⟨q, ⟨hq, by simp [h1, h2]⟩, rfl⟩, rfl⟩

theorem trackItemApp_eq_some {favKeys : List (String × String)} {tr : Track}
    {p : String × String} (h : trackItemApp favKeys tr = some p) :
    p = (tr.name ++ " — " ++ leadName tr, trackUrl tr) ∧
    tr.name ≠ "" ∧ leadName tr ≠ "" ∧
    (pyLower (pyStrip tr.name), pyLower (pyStrip (leadName tr))) ∉ favKeys := by
  unfold trackItemApp at h
  by_cases h1 : tr.name = "" ∨ leadName tr = ""
  · rw [if_pos h1] at h
    exact absurd h (by simp)
  · rw [if_neg h1] at h
    by_cases h2 : (pyLower (pyStrip tr.name), pyLower (pyStrip (leadName tr))) ∈ favKeys
    · rw [if_pos h2] at h
      exact absurd h (by simp)
    · rw [if_neg h2] at h
      have hp := Option.some.inj h
      push_neg at h1
      exact ⟨hp.symm, h1.1, h1.2, h2⟩

/-- C4: every item emitted by the standard expander comes from a track
with a non-empty name and a non-empty primary-artist name, and its
lower-cased trimmed `(track name, artist name)` key differs from the
lower-cased trimmed key of every usable input favorite. -/
theorem standardNoFavoriteDup (cat : Catalog) (favorites : List (String × String))
    (maxRecs : Nat) (p : String × String)
    (hp : p ∈ recommendFromFavorites cat favorites maxRecs) :
    ∃ tname paname url, p = (tname ++ " — " ++ paname, url) ∧
      tname ≠ "" ∧ paname ≠ "" ∧
      ∀ q ∈ favorites, pyStrip q.1 ≠ "" → pyStrip q.2 ≠ "" →
        (pyLower (pyStrip tname), pyLower (pyStrip paname)) ≠
          (pyLower (pyStrip q.1), pyLower (pyStrip q.2)) := by
  have hp2 : p ∈ candidatesOf cat (resolvedArtistInfos cat favorites)
      (favKeysOf favorites) := pickRecs_mem hp
  unfold candidatesOf at hp2
  rw [List.mem_flatMap] at hp2
  obtain ⟨i, _, hpi⟩ := hp2
  cases htop : topTracksLtd cat i.1 10 with
  | error e =>
    rw [htop] at hpi
    simp at hpi
  | ok top =>
    rw [htop] at hpi
    rw [List.mem_filterMap] at hpi
    obtain ⟨tr, _, hsome⟩ := hpi
    obtain ⟨hpeq, hn1, hn2, hnotin⟩ := trackItemApp_eq_some hsome
    refine ⟨tr.name, leadName tr, trackUrl tr, hpeq, hn1, hn2, ?_⟩
    intro q hq hq1 hq2 heq
    apply hnotin
    rw [heq]
    exact mem_favKeysOf hq (ne_empty_of_pyStrip_ne hq1) (ne_empty_of_pyStrip_ne hq2)

/-- Witness for `standardNoFavoriteDup` on a concrete pipeline run. -/
theorem standardNoFavoriteDup_witness :
    ("Save Your Tears — The Weeknd", "u2") ∈
      recommendFromFavorites w4Cat [("Blinding Lights", "The Weeknd")] 3 ∧
    (∃ tname paname url,
      (("Save Your Tears — The Weeknd", "u2") : String × String) =
        (tname ++ " — " ++ paname, url) ∧
      tname ≠ "" ∧ paname ≠ "" ∧
      ∀ q ∈ [("Blinding Lights", "The Weeknd")],
        pyStrip q.1 ≠ "" → pyStrip q.2 ≠ "" →
        (pyLower (pyStrip tname), pyLower (pyStrip paname)) ≠
          (pyLower (pyStrip q.1), pyLower (pyStrip q.2))) :=
  ⟨by decide,
   standardNoFavoriteDup w4Cat [("Blinding Lights", "The Weeknd")] 3
     ("Save Your Tears — The Weeknd", "u2") (by decide)⟩

/-- C5: a favorite pair with exactly one field populated is excluded
from resolution (it never passes the `if t and a` guard) and appears
in the partial-input warning list the caller receives. -/
theorem partialInputReported (favorites : List (String × String))
    (p : String × String) (hp : p ∈ favorites)
    (hx : (p.1 ≠ "" ∧ p.2 = "") ∨ (p.1 = "" ∧ p.2 ≠ "")) :
    p ∉ resolutionInputs favorites ∧ p ∈ partialInputWarnings favorites := by
  constructor
  · intro hmem
    rw [resolutionInputs, List.mem_filter] at hmem
    rcases hx with ⟨h1, h2⟩ | ⟨h1, h2⟩
    · simp [h2] at hmem
    · simp [h1] at hmem
  · rw [partialInputWarnings, List.mem_filter]
    refine ⟨hp, ?_⟩
    rcases hx with ⟨h1, h2⟩ | ⟨h1, h2⟩
    · simp [h1, h2]
    · simp [h1, h2]

/-- Witness for `partialInputReported`. -/
theorem partialInputReported_witness :
    (("Only Title", "") : String × String) ∈ [("Only Title", "")] ∧
    ((("Only Title", "") : String × String) ∉ resolutionInputs [("Only Title", "")] ∧
     (("Only Title", "") : String × String) ∈ partialInputWarnings [("Only Title", "")]) :=
  ⟨by decide,
   partialInputReported [("Only Title", "")] ("Only Title", "")
     (by decide) (Or.inl ⟨by decide, rfl⟩)⟩

/-- C7 (amended): a pair participates in resolution exactly when both
fields are non-empty *before* trimming; trimming happens afterwards,
so whitespace-only fields pass the guard. -/
theorem usableIffNonempty (favorites : List (String × String))
    (p : String × String) :
    p ∈ resolutionInputs favorites ↔
      p ∈ favorites ∧ p.1 ≠ "" ∧ p.2 ≠ "" := by
  rw [resolutionInputs, List.mem_filter]
  simp [and_assoc]

/-- Witness for `usableIffNonempty`. -/
theorem usableIffNonempty_witness :
    (("a", "b") : String × String) ∈ resolutionInputs [("a", "b")] ↔
      (("a", "b") : String × String) ∈ [("a", "b")] ∧
        ("a" : String) ≠ "" ∧ ("b" : String) ≠ "" :=
  usableIffNonempty [("a", "b")] ("a", "b")

/-- C7 counterexample: the pair `(" ", "x")` has a whitespace-only
title (trimmed it is empty), yet it passes the resolution guard and
participates in resolution as `("", "x")` — the claim says it must be
excluded before resolution. -/
theorem usableIffNonempty_counterexample :
    resolutionInputs [(" ", "x")] = [(" ", "x")] ∧
    usableFavs [(" ", "x")] = [("", "x")] ∧ pyStrip " " = "" := by decide

/-- C9: the niche bucketizer always returns exactly the three bucket
labels in order, each mapped to a list of length at most `perBucket`
(possibly empty), for every input including all-failing catalogs. -/
theorem bucketsAlwaysComplete (cat : Catalog)
    (favorites : List (String × String))
    (trackPopMax artistPopMax perBucket : Nat) :
    (buildRecommendationBuckets cat favorites trackPopMax artistPopMax
        perBucket).map Prod.fst =
      ["Hidden gems", "Rising stars (related artists)",
       "Rising stars (by genre)"] ∧
    ∀ b ∈ buildRecommendationBuckets cat favorites trackPopMax artistPopMax
        perBucket, b.2.length ≤ perBucket := by
  constructor
  · rfl
  · intro b hb
    simp only [buildRecommendationBuckets, List.mem_cons,
      List.not_mem_nil, or_false] at hb
    rcases hb with rfl | rfl | rfl <;>
      simpa using List.length_take_le _ _

/-- Witness for `bucketsAlwaysComplete` on the all-failing catalog. -/
theorem bucketsAlwaysComplete_witness :
    (buildRecommendationBuckets failCat [("a", "b")] 35 45 5).map Prod.fst =
      ["Hidden gems", "Rising stars (related artists)",
       "Rising stars (by genre)"] ∧
    ∀ b ∈ buildRecommendationBuckets failCat [("a", "b")] 35 45 5,
      b.2.length ≤ 5 :=
  bucketsAlwaysComplete failCat [("a", "b")] 35 45 5


/-- C6 (amended): when the accepted best candidate's artist-metadata
fetch succeeds but returns nothing (Python `{}`), the resolver still
returns a resolved artist whose name falls back to the track record's
lead-artist name and whose genres fall back to the empty list.  (A
*raising* fetch instead propagates and fails the resolution — see the
counterexample.) -/
theorem resolveMetadataFallback (cat : Catalog) (title artist : String)
    (limit : Nat) (threshold : ℚ) (cs : List Track) (tr : Track)
    (hcs : trySearchVariants cat title artist limit = .ok cs)
    (hbest : bestOf (codeScore title artist) cs =
      (some tr, codeScore title artist tr))
    (hth : threshold ≤ codeScore title artist tr)
    (haid : leadId tr ≠ "")
    (hget : cat.getArtist (leadId tr) = .ok emptyArtistRec) :
    resolveFavoriteToArtist cat title artist limit threshold =
      .ok (some (leadId tr, leadName tr, [])) := by
  unfold resolveFavoriteToArtist
  rw [hcs]
  simp only [hbest]
  rw [if_neg (not_lt.mpr hth), if_pos haid, hget]
  rfl

/-- Witness for `resolveMetadataFallback` on a concrete catalog whose
`get_artist` returns the empty record. -/
theorem resolveMetadataFallback_witness :
    trySearchVariants w6Cat "song" "band" 10 = .ok [track6] ∧
    bestOf (codeScore "song" "band") [track6] =
      (some track6, codeScore "song" "band" track6) ∧
    (72 : ℚ) ≤ codeScore "song" "band" track6 ∧
    leadId track6 ≠ "" ∧
    w6Cat.getArtist (leadId track6) = .ok emptyArtistRec ∧
    resolveFavoriteToArtist w6Cat "song" "band" 10 72 =
      .ok (some (leadId track6, leadName track6, [])) :=
  ⟨by decide, by decide, by decide, by decide, by decide,
   resolveMetadataFallback w6Cat "song" "band" 10 72 [track6] track6
     (by decide) (by decide) (by decide) (by decide) (by decide)⟩

/-- C6 counterexample: the same accepted candidate (`track6`, exact
match, score 100 ≥ 72 — shown by the healthy-catalog run resolving it)
makes the whole resolution raise when `get_artist` raises, instead of
falling back to track-record values as the claim states. -/
theorem resolveMetadataFallback_counterexample :
    resolveFavoriteToArtist cxCat6 "song" "band" 10 72 = .error () ∧
    resolveFavoriteToArtist cxCat6b "song" "band" 10 72 =
      .ok (some ("A6", "Band6", [])) := by decide

/-! ## Agreement of the two recommend_from_favorites variants -/

theorem trackItem_agree {favKeys : List (String × String)} {tr : Track}
    (h1 : tr.name ≠ "") (h2 : leadName tr ≠ "") :
    trackItemApp favKeys tr = trackItemCore favKeys tr := by
  unfold trackItemApp trackItemCore
  rw [if_neg (by push_neg; exact ⟨h1, h2⟩)]

theorem candidatesOf_nil (cat : Catalog) (favKeys : List (String × String)) :
    candidatesOf cat [] favKeys = [] := rfl

theorem coreCandidatesOf_nil (cat : Catalog) (favKeys : List (String × String)) :
    coreCandidatesOf cat [] favKeys = [] := rfl

theorem candidatesOf_cons (cat : Catalog) (i : String × String × List String)
    (r : List (String × String × List String))
    (favKeys : List (String × String)) :
    candidatesOf cat (i :: r) favKeys =
      (match topTracksLtd cat i.1 10 with
       | .error _ => []
       | .ok top => top.filterMap (trackItemApp favKeys)) ++
        candidatesOf cat r favKeys := by
  unfold candidatesOf
  rw [List.flatMap_cons]

theorem coreCandidatesOf_cons (cat : Catalog) (i : String × String × List String)
    (r : List (String × String × List String))
    (favKeys : List (String × String)) :
    coreCandidatesOf cat (i :: r) favKeys =
      (match topTracksLtd cat i.1 10 with
       | .error _ => []
       | .ok top => top.filterMap (trackItemCore favKeys)) ++
        coreCandidatesOf cat r favKeys := by
  unfold coreCandidatesOf
  rw [List.flatMap_cons]

theorem candidates_agree (cat : Catalog) (favKeys : List (String × String)) :
    ∀ (l1 l2 : List (String × String × List String)),
      l1.map (fun i => i.1) = l2.map (fun i => i.1) →
      (∀ aid ∈ l1.map (fun i => i.1),
        ∀ tr ∈ catchList (topTracksLtd cat aid 10),
          tr.name ≠ "" ∧ leadName tr ≠ "") →
      candidatesOf cat l1 favKeys = coreCandidatesOf cat l2 favKeys := by
  intro l1
  induction l1 with
  | nil =>
    intro l2 hmap _
    have h2 : l2 = [] := by
      cases l2 with
      | nil => rfl
      | cons _ _ => simp at hmap
    subst h2
    rfl
  | cons i r ih =>
    intro l2 hmap hnames
    cases l2 with
    | nil => simp at hmap
    | cons j r2 =>
      simp only [List.map_cons, List.cons.injEq] at hmap
      obtain ⟨hid, hrest⟩ := hmap
      rw [candidatesOf_cons, coreCandidatesOf_cons]
      have htail : candidatesOf cat r favKeys = coreCandidatesOf cat r2 favKeys := by
        apply ih r2 hrest
        intro aid haid
        exact hnames aid (List.mem_cons_of_mem _ haid)
      rw [htail, ← hid]
      congr 1
      cases htop : topTracksLtd cat i.1 10 with
      | error e => rfl
      | ok top =>
        apply List.filterMap_congr
        intro tr htr
        have hmem : tr ∈ catchList (topTracksLtd cat i.1 10) := by
          rw [htop]
          exact htr
        obtain ⟨hn1, hn2⟩ := hnames i.1 (by simp) tr hmem
        exact trackItem_agree hn1 hn2

/-- C10 (amended): the two `recommend_from_favorites` variants return
the same ordered list whenever (a) the two resolution strategies
produce the same sequence of artist ids, and (b) every top track of a
resolved artist has a non-empty name and primary-artist name (the only
filter app.py adds over core_recommender.py). -/
theorem recommendVariantsAgree (cat : Catalog)
    (favorites : List (String × String)) (maxRecs : Nat)
    (hids : (resolvedArtistInfos cat favorites).map (fun i => i.1) =
            (coreArtistInfos cat favorites).map (fun i => i.1))
    (hnames : ∀ aid ∈ (resolvedArtistInfos cat favorites).map (fun i => i.1),
      ∀ tr ∈ catchList (topTracksLtd cat aid 10),
        tr.name ≠ "" ∧ leadName tr ≠ "") :
    recommendFromFavorites cat favorites maxRecs =
      recommendFromFavoritesCore cat favorites maxRecs := by
  unfold recommendFromFavorites recommendFromFavoritesCore expandStd
  rw [candidates_agree cat (favKeysOf favorites) _ _ hids hnames]

/-- Witness for `recommendVariantsAgree` on an exact-match catalog. -/
theorem recommendVariantsAgree_witness :
    (resolvedArtistInfos w10Cat [("aa", "bb")]).map (fun i => i.1) =
      (coreArtistInfos w10Cat [("aa", "bb")]).map (fun i => i.1) ∧
    (∀ aid ∈ (resolvedArtistInfos w10Cat [("aa", "bb")]).map (fun i => i.1),
      ∀ tr ∈ catchList (topTracksLtd w10Cat aid 10),
        tr.name ≠ "" ∧ leadName tr ≠ "") ∧
    recommendFromFavorites w10Cat [("aa", "bb")] 3 =
      recommendFromFavoritesCore w10Cat [("aa", "bb")] 3 :=
  ⟨by decide, by decide,
   recommendVariantsAgree w10Cat [("aa", "bb")] 3 (by decide) (by decide)⟩

/-- C10 counterexample: on `cxCat10` the quoted search returns a badly
matching track; core_recommender.py resolves it blindly and recommends
from its artist, while app.py's scored resolver rejects it (best score
0 < 72) and recommends nothing — the two functions differ. -/
theorem recommendVariantsAgree_counterexample :
    recommendFromFavoritesCore cxCat10 [("AAAA", "BBBB")] 3 =
      [("wwww — qqqq", "u2")] ∧
    recommendFromFavorites cxCat10 [("AAAA", "BBBB")] 3 = [] := by decide


/-! ## String facts for the cascade analysis -/

theorem string_eq_empty_iff (s : String) : s = "" ↔ s.data = [] := by
  constructor
  · intro h
    rw [h]
  · intro h
    cases s
    simp_all

theorem strData_append (a b : String) : (a ++ b).data = a.data ++ b.data := rfl

theorem mem_dropWhile {p : Char → Bool} {l : List Char} {c : Char}
    (hc : c ∈ l) (h : p c = false) : c ∈ l.dropWhile p := by
  induction l with
  | nil => simp at hc
  | cons x xs ih =>
    by_cases hx : p x = true
    · rw [List.dropWhile_cons_of_pos hx]
      rcases List.mem_cons.mp hc with rfl | hc2
      · rw [hx] at h
        exact absurd h (by simp)
      · exact ih hc2
    · rw [List.dropWhile_cons_of_neg hx]
      exact hc

theorem stripChars_ne_nil {l : List Char} {c : Char} (hc : c ∈ l)
    (h : c.isWhitespace = false) : stripChars l ≠ [] := by
  unfold stripChars
  intro h2
  rw [List.reverse_eq_nil_iff] at h2
  have hmem1 : c ∈ l.dropWhile Char.isWhitespace := mem_dropWhile hc h
  have hmem2 : c ∈ (l.dropWhile Char.isWhitespace).reverse :=
    List.mem_reverse.mpr hmem1
  have hmem3 : c ∈ (l.dropWhile Char.isWhitespace).reverse.dropWhile
      Char.isWhitespace := mem_dropWhile hmem2 h
  rw [h2] at hmem3
  simp at hmem3

theorem join2_ne_left {x y : String} {c : Char} (hc : c ∈ x.data)
    (h : c.isWhitespace = false) : join2 x y ≠ "" := by
  intro h2
  rw [string_eq_empty_iff] at h2
  have hmem : c ∈ ((x ++ " " ++ y)).data := by
    rw [strData_append, strData_append]
    exact List.mem_append_left _ (List.mem_append_left _ hc)
  exact stripChars_ne_nil hmem h h2

theorem join2_ne_right {x y : String} {c : Char} (hc : c ∈ y.data)
    (h : c.isWhitespace = false) : join2 x y ≠ "" := by
  intro h2
  rw [string_eq_empty_iff] at h2
  have hmem : c ∈ ((x ++ " " ++ y)).data := by
    rw [strData_append]
    exact List.mem_append_right _ hc
  exact stripChars_ne_nil hmem h h2

theorem quotedQuery_ne_of_title {title artist : String} (h : title ≠ "") :
    quotedQuery title artist ≠ "" := by
  unfold quotedQuery
  rw [if_pos h]
  apply join2_ne_left (c := 't')
  · rw [strData_append, strData_append]
    exact List.mem_append_left _ (List.mem_append_left _ (by decide))
  · decide

theorem quotedQuery_ne_of_artist {title artist : String} (h : artist ≠ "") :
    quotedQuery title artist ≠ "" := by
  unfold quotedQuery
  rw [if_pos h]
  apply join2_ne_right (c := 'a')
  · rw [strData_append, strData_append]
    exact List.mem_append_left _ (List.mem_append_left _ (by decide))
  · decide

theorem searchTrack_both_empty (cat : Catalog) (limit : Nat) :
    searchTrack cat "" "" limit = .ok [] := rfl

theorem searchTrack_eq_quoted (cat : Catalog) (title artist : String)
    (limit : Nat) (ht : fieldOk title) (ha : fieldOk artist)
    (hne : ¬ (title = "" ∧ artist = "")) :
    searchTrack cat title artist limit =
      cat.search (quotedQuery title artist) limit := by
  unfold searchTrack quotedQuery
  by_cases h1 : title = ""
  · have h2 : artist ≠ "" := fun hh => hne ⟨h1, hh⟩
    have ha2 : pyStrip artist ≠ "" := by
      rcases ha with rfl | ⟨hs, _⟩
      · exact absurd rfl h2
      · exact hs
    subst h1
    simp only [pyStrip_empty]
    rw [if_neg (fun hand => ha2 hand.2)]
    rw [if_neg (fun hh : ("" : String) ≠ "" => hh rfl)]
    rw [if_pos ha2, if_pos h2]
  · have ht2 : pyStrip title ≠ "" := by
      rcases ht with rfl | ⟨hs, _⟩
      · exact absurd rfl h1
      · exact hs
    rw [if_neg (fun hand => ht2 hand.1)]
    rw [if_pos ht2, if_pos h1]
    by_cases h2 : artist = ""
    · subst h2
      simp [pyStrip_empty]
    · have ha2 : pyStrip artist ≠ "" := by
        rcases ha with rfl | ⟨hs, _⟩
        · exact absurd rfl h2
        · exact hs
      rw [if_pos ha2, if_pos h2]

theorem filtered_eq (cat : Catalog) (title artist : String) (limit : Nat)
    (hq : ∃ L, (if quotedQuery title artist ≠ "" then
        cat.search (quotedQuery title artist) limit else .ok []) = .ok L) :
    catchList (searchTracksFiltered cat title artist limit) =
      (if specStep1 cat title artist limit ≠ [] then
        specStep1 cat title artist limit
       else specStep2 cat title artist limit) := by
  obtain ⟨L, hL⟩ := hq
  have hs1 : specStep1 cat title artist limit = L := by
    unfold specStep1
    by_cases hqq : quotedQuery title artist ≠ ""
    · rw [if_pos hqq]
      rw [if_pos hqq] at hL
      rw [hL]
      rfl
    · rw [if_neg hqq] at hL
      rw [if_neg hqq, Except.ok.inj hL]
  unfold searchTracksFiltered
  show catchList (match (if quotedQuery title artist ≠ "" then
      cat.search (quotedQuery title artist) limit else Except.ok []) with
    | Except.error e => Except.error e
    | Except.ok r1 =>
      if r1 ≠ [] then Except.ok r1
      else (match (if unquotedQuery title artist ≠ "" then
          cat.search (unquotedQuery title artist) limit else Except.ok []) with
        | Except.error e => Except.error e
        | Except.ok r2 => Except.ok r2)) = _
  rw [hL, hs1]
  show catchList (if L ≠ [] then Except.ok L
    else (match (if unquotedQuery title artist ≠ "" then
        cat.search (unquotedQuery title artist) limit else Except.ok []) with
      | Except.error e => Except.error e
      | Except.ok r2 => Except.ok r2)) =
    (if L ≠ [] then L else specStep2 cat title artist limit)
  by_cases hLne : L ≠ []
  · rw [if_pos hLne, if_pos hLne]
    rfl
  · rw [if_neg hLne, if_neg hLne]
    unfold specStep2
    by_cases hqu : unquotedQuery title artist ≠ ""
    · rw [if_pos hqu, if_pos hqu]
      cases hres : cat.search (unquotedQuery title artist) limit with
      | error e => rfl
      | ok R => rfl
    · rw [if_neg hqu, if_neg hqu]
      rfl


/-! ## The cascade refinement (C2) -/

theorem trySearchVariants_def (cat : Catalog) (title artist : String)
    (limit : Nat) :
    trySearchVariants cat title artist limit =
      (if catchList (searchTracksFiltered cat title artist limit) ≠ [] then
        .ok (catchList (searchTracksFiltered cat title artist limit))
       else if freeStep cat title artist limit ≠ [] then
        .ok (freeStep cat title artist limit)
       else if catchList (searchTrack cat title artist limit) ≠ [] then
        .ok (catchList (searchTrack cat title artist limit))
       else if titleOnlyStep cat title limit ≠ [] then
        .ok (titleOnlyStep cat title limit)
       else if artistOnlyStep cat artist limit ≠ [] then
        .ok (artistOnlyStep cat artist limit)
       else
        (match (if title ≠ "" then
             (match pySplit title with
              | [] => Except.error ()
              | x :: _ => Except.ok x)
           else .ok "") with
         | .error e => .error e
         | .ok tFirst =>
           match (if artist ≠ "" then
               (match pySplit artist with
                | [] => Except.error ()
                | x :: _ => Except.ok x)
             else .ok "") with
           | .error e => .error e
           | .ok aFirst =>
             if tFirst ≠ "" ∨ aFirst ≠ "" then
               .ok (catchList (searchTrack cat tFirst aFirst limit))
             else .ok [])) := rfl

theorem specCascade_def (cat : Catalog) (title artist : String) (limit : Nat) :
    specCascade cat title artist limit =
      (if specStep1 cat title artist limit ≠ [] then
        specStep1 cat title artist limit
       else if specStep2 cat title artist limit ≠ [] then
        specStep2 cat title artist limit
       else if freeStep cat title artist limit ≠ [] then
        freeStep cat title artist limit
       else if titleOnlyStep cat title limit ≠ [] then
        titleOnlyStep cat title limit
       else if artistOnlyStep cat artist limit ≠ [] then
        artistOnlyStep cat artist limit
       else specStep6 cat title artist limit) := rfl

theorem tokenStep_eq (cat : Catalog) (title artist : String) (limit : Nat)
    (ht : fieldOk title) (ha : fieldOk artist) :
    (match (if title ≠ "" then
         (match pySplit title with
          | [] => Except.error ()
          | x :: _ => Except.ok x)
       else .ok "") with
     | .error e => .error e
     | .ok tFirst =>
       match (if artist ≠ "" then
           (match pySplit artist with
            | [] => Except.error ()
            | x :: _ => Except.ok x)
         else .ok "") with
       | .error e => .error e
       | .ok aFirst =>
         if tFirst ≠ "" ∨ aFirst ≠ "" then
           .ok (catchList (searchTrack cat tFirst aFirst limit))
         else .ok []) = Except.ok (specStep6 cat title artist limit) := by
  have htf : (if title ≠ "" then
      (match pySplit title with
       | [] => Except.error ()
       | x :: _ => Except.ok x)
    else .ok "") = Except.ok ((pySplit title).headD "") := by
    by_cases h1 : title = ""
    · subst h1
      rfl
    · rw [if_pos h1]
      rcases ht with rfl | ⟨_, hsp⟩
      · exact absurd rfl h1
      · cases hps : pySplit title with
        | nil => exact absurd hps hsp
        | cons x xs => rfl
  have haf : (if artist ≠ "" then
      (match pySplit artist with
       | [] => Except.error ()
       | x :: _ => Except.ok x)
    else .ok "") = Except.ok ((pySplit artist).headD "") := by
    by_cases h1 : artist = ""
    · subst h1
      rfl
    · rw [if_pos h1]
      rcases ha with rfl | ⟨_, hsp⟩
      · exact absurd rfl h1
      · cases hps : pySplit artist with
        | nil => exact absurd hps hsp
        | cons x xs => rfl
  rw [htf, haf]
  unfold specStep6
  exact (apply_ite Except.ok _ _ _).symm

/-- C2 (amended): provided the quoted field-filtered call does not
raise (a raised quoted call also skips the unquoted variant inside the
same exception handler — the counterexample shows this breaks the
stated order) and each input field is empty or contains a
non-whitespace character (a truthy all-whitespace field raises an
uncaught IndexError in the first-token step), the cascade returns
exactly the first non-empty result set of the six spec strategies
attempted in the stated order; moreover, whenever both field-filtered
steps are empty and the free-text step has candidates among which one
scores at least the threshold, then — the accepted candidate's
artist-metadata fetch permitting (no `get_artist` call raises, since a
raised fetch aborts the resolution as C6's counterexample shows) —
the resolver returns a match. -/
theorem cascadeSpec (cat : Catalog) (title artist : String) (limit : Nat)
    (threshold : ℚ)
    (hq : ∃ L, (if quotedQuery title artist ≠ "" then
        cat.search (quotedQuery title artist) limit else .ok []) = .ok L)
    (ht : fieldOk title) (ha : fieldOk artist) :
    trySearchVariants cat title artist limit =
      .ok (specCascade cat title artist limit) ∧
    (specStep1 cat title artist limit = [] →
     specStep2 cat title artist limit = [] →
     freeStep cat title artist limit ≠ [] →
     (∃ tr ∈ freeStep cat title artist limit,
        threshold ≤ codeScore title artist tr) →
     (∀ aid, ∃ ad, cat.getArtist aid = .ok ad) →
     ∃ r, resolveFavoriteToArtist cat title artist limit threshold =
        .ok (some r)) := by
  have hpart1 : trySearchVariants cat title artist limit =
      .ok (specCascade cat title artist limit) := by
    rw [trySearchVariants_def, specCascade_def,
      filtered_eq cat title artist limit hq]
    by_cases h1 : specStep1 cat title artist limit ≠ []
    · simp only [if_pos h1]
    · have h1n : specStep1 cat title artist limit = [] := not_not.mp h1
      rw [if_neg h1, if_neg h1]
      by_cases h2 : specStep2 cat title artist limit ≠ []
      · rw [if_pos h2, if_pos h2]
      · rw [if_neg h2, if_neg h2]
        by_cases h3 : freeStep cat title artist limit ≠ []
        · rw [if_pos h3, if_pos h3]
        · rw [if_neg h3, if_neg h3]
          have hr3 : catchList (searchTrack cat title artist limit) = [] := by
            by_cases hta : title = "" ∧ artist = ""
            · obtain ⟨rfl, rfl⟩ := hta
              rfl
            · rw [searchTrack_eq_quoted cat title artist limit ht ha hta]
              obtain ⟨L, hL⟩ := hq
              have hqqne : quotedQuery title artist ≠ "" := by
                rcases not_and_or.mp hta with h | h
                · exact quotedQuery_ne_of_title h
                · exact quotedQuery_ne_of_artist h
              rw [if_pos hqqne] at hL
              have hs1L : specStep1 cat title artist limit = L := by
                unfold specStep1
                rw [if_pos hqqne, hL]
                rfl
              have hLnil : L = [] := by
                rw [← hs1L]
                exact h1n
              rw [hL, hLnil]
              rfl
          rw [hr3]
          rw [if_neg (fun hh : ([] : List Track) ≠ [] => hh rfl)]
          by_cases h4 : titleOnlyStep cat title limit ≠ []
          · rw [if_pos h4, if_pos h4]
          · rw [if_neg h4, if_neg h4]
            by_cases h5 : artistOnlyStep cat artist limit ≠ []
            · rw [if_pos h5, if_pos h5]
            · rw [if_neg h5, if_neg h5]
              exact tokenStep_eq cat title artist limit ht ha
  refine ⟨hpart1, ?_⟩
  intro h1 h2 h3 hscore hget
  have hcasc : specCascade cat title artist limit =
      freeStep cat title artist limit := by
    rw [specCascade_def]
    rw [if_neg (fun hh => hh h1), if_neg (fun hh => hh h2), if_pos h3]
  have hcs : trySearchVariants cat title artist limit =
      .ok (freeStep cat title artist limit) := by
    rw [hpart1, hcasc]
  obtain ⟨u, hu, hfm⟩ :=
    bestOf_firstMax (codeScore title artist)
      (codeScore_gt_negOne title artist) (freeStep cat title artist limit) h3
  obtain ⟨tr, htr, hth⟩ := hscore
  have hthu : threshold ≤ codeScore title artist u :=
    le_trans hth (isFirstMax_ge hfm tr htr)
  unfold resolveFavoriteToArtist
  rw [hcs]
  simp only [hu]
  rw [if_neg (not_lt.mpr hthu)]
  by_cases haid : leadId u ≠ ""
  · obtain ⟨ad, had⟩ := hget (leadId u)
    rw [if_pos haid, had]
    exact ⟨_, rfl⟩
  · rw [if_neg haid]
    exact ⟨_, rfl⟩


/-- Witness for `cascadeSpec`: a catalog where only the free-text step
has results and the resolver accepts its exact-match candidate. -/
theorem cascadeSpec_witness :
    (∃ L, (if quotedQuery "hello" "world" ≠ "" then
        w2Cat.search (quotedQuery "hello" "world") 10 else .ok []) = .ok L) ∧
    fieldOk "hello" ∧ fieldOk "world" ∧
    (trySearchVariants w2Cat "hello" "world" 10 =
      .ok (specCascade w2Cat "hello" "world" 10) ∧
     (specStep1 w2Cat "hello" "world" 10 = [] →
      specStep2 w2Cat "hello" "world" 10 = [] →
      freeStep w2Cat "hello" "world" 10 ≠ [] →
      (∃ tr ∈ freeStep w2Cat "hello" "world" 10,
         (72 : ℚ) ≤ codeScore "hello" "world" tr) →
      (∀ aid, ∃ ad, w2Cat.getArtist aid = .ok ad) →
      ∃ r, resolveFavoriteToArtist w2Cat "hello" "world" 10 72 =
         .ok (some r))) :=
  ⟨⟨[], by decide⟩, Or.inr ⟨by decide, by decide⟩, Or.inr ⟨by decide, by decide⟩,
   cascadeSpec w2Cat "hello" "world" 10 72 ⟨[], by decide⟩
     (Or.inr ⟨by decide, by decide⟩) (Or.inr ⟨by decide, by decide⟩)⟩

/-- C2 counterexample: on `cxCat2` the quoted field-filtered query
raises, which makes the code skip the unquoted variant entirely (both
live inside one `try`), so the cascade comes back empty even though
the unquoted strategy — attempted next per the claim — has a result. -/
theorem cascadeSpec_counterexample :
    trySearchVariants cxCat2 "T" "A" 10 = .ok [] ∧
    specCascade cxCat2 "T" "A" 10 = [cxTrack2] ∧
    trySearchVariants cxCat2 "T" "A" 10 ≠
      .ok (specCascade cxCat2 "T" "A" 10) := by decide

end SpotifyRec
